import Mathlib

/-!
Shallow embedding of the asynchronous job-processing and quota core of the
oxla backend (`src/backend/app`), covering:

* the chunked-upload reassembly logic of
  `DriveService.upload_file_chunked` / `DriveService.combine_chunks`
  (`app/services/drive/drive_service.py`);
* the celery retry driver for `send_email_task` / `scan_file_task`
  (`app/tasks/email_tasks.py`, `app/tasks/drive_tasks.py`);
* the redis-backed rate limiter `check_rate_limit`
  (`app/tasks/monitoring_tasks.py`);
* the `UserUsage` ledger operations `update_storage_usage`,
  `update_email_usage`, the lazy creation in `check_email_usage_limit`,
  `reset_monthly_usage`, and the reverse debit in `DriveService.delete_file`.

Counters stored in SQL `Integer` columns are modelled as `ℤ` (they may go
negative); redis counters and chunk numbers as `ℕ`.
-/

namespace Oxla

/-! ## Upload reassembly (`drive_service.py`)

An upload session for a given `upload_id` is the state of the temporary
directory `temp/<upload_id>`: the set of chunk numbers `n` for which a file
`chunk_<n>` exists, and the bytes stored in each such file.  Saving a chunk
(`upload_file_chunked` lines 128-131) writes `chunk_<chunk_number>`,
overwriting any previous file with the same name. -/

structure UploadSession where
  /-- chunk numbers `n` such that the file `chunk_<n>` exists in the temp dir -/
  received : Finset ℕ
  /-- bytes of the file `chunk_<n>` (meaningful only for `n ∈ received`) -/
  data : ℕ → List ℕ

/-- The temp directory right after `mkdir`: no `chunk_*` files. -/
def emptySession : UploadSession := ⟨∅, fun _ => []⟩

/-- One call of `upload_file_chunked` saving `chunk_<n>` with bytes `b`
(lines 128-131): the file is (over)written, so `n` is inserted into the set
of present chunk files and its contents replaced. -/
def submitChunk (s : UploadSession) (n : ℕ) (b : List ℕ) : UploadSession :=
  ⟨insert n s.received, fun k => if k = n then b else s.data k⟩

/-- The count `uploaded_chunks = len(list(temp_dir.glob("chunk_*")))` (line 134). -/
def chunksUploaded (s : UploadSession) : ℕ := s.received.card

/-- The completion test of `upload_file_chunked` line 136:
`uploaded_chunks == total_chunks` triggers `combine_chunks`. -/
def sessionCompletes (total : ℕ) (s : UploadSession) : Bool :=
  chunksUploaded s == total

/-- The state of the session after a list of submissions
(repeated calls of `upload_file_chunked` with the same `upload_id`). -/
def runSubs (subs : List (ℕ × List ℕ)) : UploadSession :=
  subs.foldl (fun s p => submitChunk s p.1 p.2) emptySession

/-- Whether `combine_chunks` fires at some point while processing the
submissions in order: each call saves its chunk and then tests
`uploaded_chunks == total_chunks`; once it fires the session is finalized
(the temp dir is deleted), so processing of this session stops. -/
def completesDuring (total : ℕ) (s : UploadSession) : List (ℕ × List ℕ) → Bool
  | [] => false
  | p :: rest =>
    let s' := submitChunk s p.1 p.2
    if sessionCompletes total s' then true else completesDuring total s' rest

/-- The concatenation computed by the success path of `combine_chunks`
(lines 169 and 189-192): chunk files sorted by numeric chunk number
(`key=lambda x: int(x.stem.split("_")[1])`), their bytes concatenated in
that order.  In the program this path is unreachable — every
`combine_chunks` invocation raises before line 178 (see `combine_chunks`
below) — so this models the reassembly the success path describes, not a
file the program ever produces. -/
def combinedBytes (s : UploadSession) : List ℕ :=
  ((s.received.sort (· ≤ ·)).map s.data).flatten

/-- Outcome of a `combine_chunks` invocation (lines 151-241).  The user
lookup (lines 163-165) raises ValueError when no user row matches.
Otherwise the storage-quota check at line 175 calls `check_storage_quota`,
whose first statement `db.query(UserUsage)` (line 505) raises NameError:
`UserUsage` is unbound in `drive_service.py`, whose line 11 imports only
`get_db, User, DriveFile, DriveFolder, DriveShare` from `app.models`.
The `except` block (lines 236-241) deletes the temp dir and re-raises, so
everything from line 178 on — the concatenation, the `DriveFile` record,
the `scan_file_task.delay` enqueue at line 222 — is unreachable. -/
def combine_chunks (userExists : Bool) : Except String Unit :=
  if userExists then Except.error "NameError: name UserUsage is not defined"
  else Except.error "ValueError: User not found"

/-- Number of finalize/scan jobs enqueued by one `combine_chunks`
invocation: `scan_file_task.delay` (line 222) runs only when
`combine_chunks` succeeds. -/
def combineEnqueuesScan (userExists : Bool) : ℕ :=
  match combine_chunks userExists with
  | Except.ok _ => 1
  | Except.error _ => 0

/-! ## Celery retry driver (`email_tasks.py`, `drive_tasks.py`, `celery_app.py`)

`send_email_task` is declared `@celery_app.task(bind=True, max_retries=3,
default_retry_delay=60)`.  Its body ends with

    except Exception as e:
        ... email.status = EmailStatus.FAILED; db.commit() ...
        raise self.retry(exc=e, countdown=60 * (2 ** self.request.retries))

`scan_file_task` (`drive_tasks.py` lines 46-59) has the same shape (its
side effect sets `virus_scan_status = "scan_failed"`).  Celery's driver
starts an execution with `self.request.retries = 0`; `self.retry` re-runs
the task with `retries + 1` when `retries + 1 <= max_retries` and otherwise
raises, leaving the task terminally failed.  We model a handler that raises
a transient error on every execution. -/

/-- The `countdown=60 * (2 ** self.request.retries)` of `send_email_task`
(line 139 of `email_tasks.py`). -/
def sendEmailRetryCountdown (retries : ℕ) : ℕ := 60 * 2 ^ retries

/-- The `countdown=60 * (2 ** self.request.retries)` of `scan_file_task`
(line 59 of `drive_tasks.py`). -/
def scanFileRetryCountdown (retries : ℕ) : ℕ := 60 * 2 ^ retries

/-- Trace of one celery task whose handler raises on every execution. -/
structure RetryTrace where
  /-- number of times the task body was executed -/
  executions : ℕ
  /-- number of times the `except` block ran its failure side effect
  (e.g. marking the email `FAILED`) -/
  failedMarks : ℕ
  /-- the `countdown` passed to each `self.retry` call that scheduled a
  re-execution, in order -/
  countdowns : List ℕ
deriving DecidableEq

/-- Run of an always-raising task from `request.retries = r` with remaining
retry budget `b = max_retries - r`.  Each execution runs the body (raises),
runs the `except` side effect, and calls `self.retry`: with budget `0`
(`retries + 1 > max_retries`) the retry call raises and the task is
terminally Failed; otherwise the task is re-executed at `retries = r + 1`
after `countdown = 60 * 2 ^ r`. -/
def runAlwaysTransientAux (r : ℕ) : ℕ → RetryTrace
  | 0 => ⟨1, 1, []⟩
  | b + 1 =>
    let t := runAlwaysTransientAux (r + 1) b
    ⟨t.executions + 1, t.failedMarks + 1, sendEmailRetryCountdown r :: t.countdowns⟩

/-- Full run of an always-raising task: starts at `request.retries = 0`
with retry budget `max_retries`. -/
def runAlwaysTransient (max_retries : ℕ) : RetryTrace :=
  runAlwaysTransientAux 0 max_retries

/-! ## Rate limiter (`monitoring_tasks.py` `check_rate_limit`, lines 153-188)

The redis value for the key `rate_limit:<user_id>:<action>` is modelled as
an optional (count, expiry) pair; `setex(key, 60, 1)` stores count 1 with
expiry `now + 60`, `incr` bumps the count keeping the expiry, and a `get`
at a time `now ≥` expiry sees no value.

The source binds `limit = rate_limits.get(user.plan.value, rate_limits["free"])`,
which is the whole per-plan dict (e.g. the dict mapping "email" to 5 for
the free plan), never indexed by
`action`.  Python's `current_count >= limit` between an `int` and a `dict`
raises `TypeError`; the surrounding `try`/`except` catches it and returns
`True` ("Allow on error").  We keep Python's dynamic typing for this one
comparison so the embedding reproduces that control flow. -/

/-- A Python value as used in the comparison `current_count >= limit`. -/
inductive PyVal where
  | intV (n : ℕ)
  | dictV (d : List (String × ℕ))
deriving DecidableEq

/-- Python `>=`: defined between two ints, raises `TypeError` between an
int and a dict. -/
def pyGe : PyVal → PyVal → Except String Bool
  | PyVal.intV a, PyVal.intV b => Except.ok (b ≤ a)
  | _, _ => Except.error "TypeError"

/-- The `rate_limits` dict of `check_rate_limit` (lines 162-166), read via
`rate_limits.get(user.plan.value, rate_limits["free"])`: each plan maps to
its own action→limit dict, any unknown plan falls back to the free dict. -/
def rate_limits (plan : String) : List (String × ℕ) :=
  if plan = "free" then [("email", 5)]
  else if plan = "pro" then [("email", 20)]
  else if plan = "enterprise" then [("email", 100)]
  else [("email", 5)]

/-- One redis counter record: value and absolute expiry time. -/
structure RedisEntry where
  count : ℕ
  expiresAt : ℕ
deriving DecidableEq

/-- The read `redis_client.get(limit_key)` at time `now`: an expired key is gone. -/
def redisGet (store : Option RedisEntry) (now : ℕ) : Option ℕ :=
  match store with
  | some e => if now < e.expiresAt then some e.count else none
  | none => none

/-- The increment `redis_client.incr(limit_key)`: bumps the count, keeping the expiry. -/
def redisIncr (store : Option RedisEntry) : Option RedisEntry :=
  match store with
  | some e => some ⟨e.count + 1, e.expiresAt⟩
  | none => some ⟨1, 0⟩

/-- The function `check_rate_limit(user_id, action)` (lines 153-188), for one
(user, action) key.  `userPlan` is the result of the user lookup
(`none` when no user row matches: `return False`).  `redisUp = false`
models the counter store being unreachable: the redis call raises, the
blanket `except` logs and returns `True` ("Allow on error"), leaving the
store untouched.  Returns the boolean result and the new store state. -/
def check_rate_limit (redisUp : Bool) (userPlan : Option String) (action : String)
    (store : Option RedisEntry) (now : ℕ) : Bool × Option RedisEntry :=
  match userPlan with
  | none => (false, store)
  | some plan =>
    -- limit = rate_limits.get(user.plan.value, rate_limits["free"])  (the dict!)
    let limit : PyVal := PyVal.dictV (rate_limits plan)
    if !redisUp then (true, store)
    else
      match redisGet store now with
      | none => (true, some ⟨1, now + 60⟩)       -- setex(limit_key, 60, 1); return True
      | some current_count =>
        match pyGe (PyVal.intV current_count) limit with
        | Except.error _ => (true, store)         -- TypeError → except → return True
        | Except.ok ge =>
          if ge then (false, store)               -- current_count >= limit: return False
          else (true, redisIncr store)            -- incr; return True

/-- A run of `n` successive calls of `check_rate_limit` for one user within a single
window (all at time `now`), threading the redis state; returns the list of
results. -/
def runRateCalls (plan : String) (now : ℕ) : ℕ → Option RedisEntry → List Bool
  | 0, _ => []
  | n + 1, store =>
    let r := check_rate_limit true (some plan) "email" store now
    r.1 :: runRateCalls plan now n r.2

/-! ## Usage ledger (`UserUsage` rows)

`UserUsage` (`models/database.py` lines 69-86): integer columns
`emails_sent`, `emails_received`, `storage_used_bytes` (SQL integers, so
modelled as `ℤ`), unique-constrained on `(user_id, month)`.  The table is
a list of rows; each operation queries with
`.filter(user_id == u, month == m).first()` and either mutates the found
row or `db.add`s a fresh one. -/

structure UsageRow where
  user_id : ℕ
  month : String
  emails_sent : ℤ
  emails_received : ℤ
  storage_used_bytes : ℤ
deriving DecidableEq

/-- The query `db.query(UserUsage).filter(user_id == u, month == m).first()`. -/
def findUsage (t : List UsageRow) (u : ℕ) (m : String) : Option UsageRow :=
  t.find? (fun r => r.user_id == u && r.month == m)

/-- Mutate the row matching `(u, m)` in place (under the unique constraint
there is at most one such row, matching the ORM update of `.first()`). -/
def setUsage (t : List UsageRow) (u : ℕ) (m : String) (f : UsageRow → UsageRow) :
    List UsageRow :=
  t.map (fun r => if r.user_id == u && r.month == m then f r else r)

/-- The op `DriveService.update_storage_usage` (`drive_service.py` lines
524-542).  Its body would find or create the `(u, m)` row and add
`size_change` to `storage_used_bytes`, but `UserUsage` in its first
statement (line 528) is unbound — line 11 of `drive_service.py` imports
only `get_db, User, DriveFile, DriveFolder, DriveShare` from `app.models`
— so every call raises NameError before touching the table and the
exception propagates to the caller. -/
def update_storage_usage (t : List UsageRow) (u : ℕ) (m : String) (size_change : ℤ) :
    Except String (List UsageRow) :=
  Except.error "NameError: name UserUsage is not defined"

/-- The ledger effect of `DriveService.delete_file` (lines 268-301): the
reverse debit `update_storage_usage(user_id, -file_record.file_size)` at
line 287, which therefore raises NameError on every call as well. -/
def delete_file_usage (t : List UsageRow) (u : ℕ) (m : String) (file_size : ℤ) :
    Except String (List UsageRow) :=
  update_storage_usage t u m (-file_size)

/-- The `UserUsage` table as seen after an `update_storage_usage` call:
the call raises before any mutation, so on the error branch the table is
the input table, unchanged. -/
def tableAfterStorageDebit (t : List UsageRow) (u : ℕ) (m : String) (d : ℤ) : List UsageRow :=
  match update_storage_usage t u m d with
  | Except.ok next => next
  | Except.error _ => t

/-- The op `update_email_usage` (`email_tasks.py` lines 383-404): find or create
the `(u, m)` row (created with `emails_sent=0, emails_received=0`, storage
default 0), then `usage.emails_sent += 1`. -/
def update_email_usage (t : List UsageRow) (u : ℕ) (m : String) : List UsageRow :=
  match findUsage t u m with
  | some _ => setUsage t u m (fun r => { r with emails_sent := r.emails_sent + 1 })
  | none => t ++ [⟨u, m, 0 + 1, 0, 0⟩]

/-- The lazy creation in `check_email_usage_limit` (`email_tasks.py`):
if no `(u, m)` row exists, add one with
`emails_sent=0, emails_received=0` (storage default 0). -/
def ensure_usage (t : List UsageRow) (u : ℕ) (m : String) : List UsageRow :=
  match findUsage t u m with
  | some _ => t
  | none => t ++ [⟨u, m, 0, 0, 0⟩]

/-- The task `reset_monthly_usage` (`monitoring_tasks.py` lines 28-68): for every
user in the `users` table, if a usage row for `(user, current_month)`
exists, set `emails_sent = 0` and `emails_received = 0`.  No row is
deleted and `storage_used_bytes` is not touched. -/
def reset_monthly_usage (users : List ℕ) (t : List UsageRow) (current_month : String) :
    List UsageRow :=
  t.map (fun r =>
    if users.contains r.user_id && r.month == current_month then
      { r with emails_sent := 0, emails_received := 0 }
    else r)

/-- Uniqueness half of the `UserUsage` invariant: at most one row per
`(user_id, month)` (the `uq_user_month_usage` unique constraint). -/
def usageKeysUnique (t : List UsageRow) : Prop :=
  (t.map (fun r => (r.user_id, r.month))).Nodup

/-- Non-negativity half of the invariant: all counters of all rows are
non-negative. -/
def usageNonneg (t : List UsageRow) : Prop :=
  ∀ r ∈ t, 0 ≤ r.emails_sent ∧ 0 ≤ r.emails_received ∧ 0 ≤ r.storage_used_bytes

/-! ## Theorems -/

/-- C10: `check_rate_limit` fails open on internal error and fails closed
on unknown tenant: when the counter store is unreachable the call returns
`true` and leaves the store (hence every counter) untouched, and when the
tenant id matches no user row it returns `false`. -/
theorem c10_fail_open_on_error_closed_on_unknown_user :
    (∀ (plan action : String) (store : Option RedisEntry) (now : ℕ),
        check_rate_limit false (some plan) action store now = (true, store)) ∧
    (∀ (redisUp : Bool) (action : String) (store : Option RedisEntry) (now : ℕ),
        check_rate_limit redisUp none action store now = (false, store)) := by
  constructor
  · intro plan action store now
    rfl
  · intro redisUp action store now
    rfl

/-- C3 (code evaluated at the failing input): a free-plan tenant making six
successive `check_rate_limit` calls within one 60-second window is admitted
all six times — the sixth call returns `true`, not `false`.  The first call
stores count 1; every later call compares the count against the whole
per-plan dict, the resulting `TypeError` is swallowed by the blanket
`except`, and the call is admitted without incrementing the counter. -/
theorem c3_sixth_call_admitted :
    runRateCalls "free" 0 6 none = [true, true, true, true, true, true] := by
  decide

/-- C4 counterexample: on the first admit at `now = 30` the fresh counter's
expiry is `30 + 60 = 90`, which is not the enclosing window boundary
`(30 / 60 + 1) * 60 = 60`; the expiry is first-admit time plus
`window_seconds`, exactly what the claim rules out. -/
theorem c4_counterexample :
    check_rate_limit true (some "free") "email" none 30 = (true, some ⟨1, 90⟩) ∧
    (90 : ℕ) ≠ (30 / 60 + 1) * 60 := by
  decide

/-- C4 (amended): the limiter keys its counter only by (user, action) — no
window index appears in the key — and on the first admit in a fresh window
(no live counter at time `now`) it creates a counter with count 1 and
expiry `now + 60` (first-admit time plus `window_seconds`, not the boundary
`floor(now / 60) * 60 + 60`), returning `true`. -/
theorem c4_first_admit (plan action : String) (store : Option RedisEntry) (now : ℕ)
    (h : redisGet store now = none) :
    check_rate_limit true (some plan) action store now = (true, some ⟨1, now + 60⟩) := by
  simp [check_rate_limit, h]

/-- Witness for `c4_first_admit` at the empty store and `now = 30`. -/
theorem c4_first_admit_witness :
    redisGet none 30 = none ∧
    check_rate_limit true (some "free") "email" none 30 = (true, some ⟨1, 90⟩) :=
  ⟨rfl, c4_first_admit "free" "email" none 30 rfl⟩

/-- C2 counterexample: with the configured `max_retries = 3`, a
`send_email_task` whose every execution raises a transient error is
executed 4 times, not 3, and the failure side effect (marking the email
`FAILED`) runs on each of the 4 failing executions, not once. -/
theorem c2_counterexample :
    ¬ ((runAlwaysTransient 3).executions = 3 ∧ (runAlwaysTransient 3).failedMarks = 1) := by
  decide

theorem runAlwaysTransientAux_executions (b r : ℕ) :
    (runAlwaysTransientAux r b).executions = b + 1 ∧
    (runAlwaysTransientAux r b).failedMarks = b + 1 := by
  induction b generalizing r with
  | zero => exact ⟨rfl, rfl⟩
  | succ b ih =>
    have h := ih (r + 1)
    simp [runAlwaysTransientAux, h.1, h.2]

/-- C2 (amended): a handler that raises a transient error on every
execution is executed exactly `max_retries + 1` times (the initial attempt
plus `max_retries` retries; 4 with the configured `max_retries = 3`) before
the task reaches terminal Failed, and the failure side effect (marking the
email `FAILED`) runs on every one of those `max_retries + 1` failing
executions, not once. -/
theorem c2_retry_bound (max_retries : ℕ) :
    (runAlwaysTransient max_retries).executions = max_retries + 1 ∧
    (runAlwaysTransient max_retries).failedMarks = max_retries + 1 :=
  runAlwaysTransientAux_executions max_retries 0

/-- C9 counterexample: the retry countdown `60 * 2 ** retries` of
`send_email_task` is not capped by any maximum delay. -/
theorem c9_counterexample : ¬ ∃ M, ∀ r, sendEmailRetryCountdown r ≤ M := by
  rintro ⟨M, hM⟩
  have h := hM M
  have h2 : M < 2 ^ M := Nat.lt_two_pow M
  have h3 : 2 ^ M ≤ 60 * 2 ^ M := Nat.le_mul_of_pos_left _ (by norm_num)
  simp only [sendEmailRetryCountdown] at h
  omega

theorem runAlwaysTransientAux_countdowns (b r : ℕ) :
    (runAlwaysTransientAux r b).countdowns
      = (List.range b).map (fun i => sendEmailRetryCountdown (r + i)) := by
  induction b generalizing r with
  | zero => rfl
  | succ b ih =>
    rw [List.range_succ_eq_map]
    simp only [runAlwaysTransientAux, ih (r + 1), List.map_cons, List.map_map]
    congr 1
    refine List.map_congr_left ?_
    intro a _
    exact congrArg sendEmailRetryCountdown (by omega)

/-- C9 (amended): on each transient failure the retry is scheduled with
countdown `base_delay * 2 ^ attempt` (`base_delay = 60`, `attempt` the
number of retries already made) — the run of an always-failing task with
retry budget `max_retries` schedules exactly the delays
`60 * 2 ^ 0, …, 60 * 2 ^ (max_retries - 1)` — and `scan_file_task` uses the
same formula; no cap is applied (`c9_counterexample`), the delays being
bounded in practice only because retries stop after `max_retries`. -/
theorem c9_backoff (max_retries : ℕ) :
    (runAlwaysTransient max_retries).countdowns
      = (List.range max_retries).map (fun r => 60 * 2 ^ r) ∧
    (∀ r, scanFileRetryCountdown r = sendEmailRetryCountdown r) := by
  constructor
  · rw [runAlwaysTransient, runAlwaysTransientAux_countdowns]
    exact List.map_congr_left fun a _ => by simp [sendEmailRetryCountdown]
  · intro r
    rfl

/-- C6: chunk submission is idempotent: resubmitting a chunk number `n`
already present in an in-progress session leaves the set of received chunk
numbers, its size, and the completion decision unchanged, the resubmitted
bytes overwriting the stored chunk rather than duplicating it. -/
theorem c6_resubmit_idempotent (s : UploadSession) (n : ℕ) (b : List ℕ)
    (h : n ∈ s.received) :
    (submitChunk s n b).received = s.received ∧
    chunksUploaded (submitChunk s n b) = chunksUploaded s ∧
    (∀ total, sessionCompletes total (submitChunk s n b) = sessionCompletes total s) ∧
    (submitChunk s n b).data n = b := by
  have hr : (submitChunk s n b).received = s.received := by
    simp only [submitChunk]
    exact Finset.insert_eq_self.mpr h
  refine ⟨hr, ?_, ?_, ?_⟩
  · simp only [chunksUploaded, hr]
  · intro total
    simp only [sessionCompletes, chunksUploaded, hr]
  · simp [submitChunk]

/-- Witness for `c6_resubmit_idempotent`: resubmitting chunk 0 of a session
that already holds chunk 0. -/
theorem c6_resubmit_idempotent_witness :
    0 ∈ (submitChunk emptySession 0 [1, 2]).received ∧
    ((submitChunk (submitChunk emptySession 0 [1, 2]) 0 [9]).received
        = (submitChunk emptySession 0 [1, 2]).received ∧
      chunksUploaded (submitChunk (submitChunk emptySession 0 [1, 2]) 0 [9])
        = chunksUploaded (submitChunk emptySession 0 [1, 2]) ∧
      (∀ total, sessionCompletes total (submitChunk (submitChunk emptySession 0 [1, 2]) 0 [9])
          = sessionCompletes total (submitChunk emptySession 0 [1, 2])) ∧
      (submitChunk (submitChunk emptySession 0 [1, 2]) 0 [9]).data 0 = [9]) :=
  ⟨by decide, c6_resubmit_idempotent (submitChunk emptySession 0 [1, 2]) 0 [9] (by decide)⟩

/-- C8 counterexample: the monthly reset does not zero
`storage_used_bytes`.  Resetting the single current-period record
`⟨user 1, "2024-01", emails_sent 3, emails_received 2, storage 500⟩`
leaves its storage counter at 500 ≠ 0. -/
theorem c8_counterexample :
    (reset_monthly_usage [1] [⟨1, "2024-01", 3, 2, 500⟩] "2024-01").map
        UsageRow.storage_used_bytes = [500] ∧
    (500 : ℤ) ≠ 0 := by
  constructor
  · rfl
  · decide

/-- C8 (amended): the monthly reset deletes no records (the table keeps its
length), leaves every record of a different period entirely unchanged, and
for current-period records (of users present in the users table) zeroes
`emails_sent` and `emails_received` while leaving `storage_used_bytes`
unchanged — it does not zero the storage counter. -/
theorem c8_reset_frame (users : List ℕ) (t : List UsageRow) (m : String) :
    (reset_monthly_usage users t m).length = t.length ∧
    ∀ (i : ℕ) (r : UsageRow), t[i]? = some r →
      (r.month ≠ m → (reset_monthly_usage users t m)[i]? = some r) ∧
      (r.month = m → r.user_id ∈ users →
        (reset_monthly_usage users t m)[i]?
          = some { r with emails_sent := 0, emails_received := 0 }) := by
  refine ⟨by simp [reset_monthly_usage], ?_⟩
  intro i r hr
  have hmap : (reset_monthly_usage users t m)[i]?
      = some (if users.contains r.user_id && r.month == m then
          { r with emails_sent := 0, emails_received := 0 } else r) := by
    unfold reset_monthly_usage
    rw [List.getElem?_map, hr]
    rfl
  constructor
  · intro hne
    rw [hmap]
    simp [hne]
  · intro hm hu
    rw [hmap]
    simp [hm, hu]

/-- Witness for `c8_reset_frame`: a table with a "2024-01" and a "2023-12"
record, reset for "2024-01"; the "2023-12" record is untouched and the
"2024-01" record keeps its storage. -/
theorem c8_reset_frame_witness :
    ([⟨1, "2024-01", 3, 2, 500⟩, ⟨1, "2023-12", 7, 0, 9⟩] : List UsageRow)[1]?
        = some ⟨1, "2023-12", 7, 0, 9⟩ ∧
    ("2023-12" : String) ≠ "2024-01" ∧
    (reset_monthly_usage [1] [⟨1, "2024-01", 3, 2, 500⟩, ⟨1, "2023-12", 7, 0, 9⟩]
        "2024-01")[1]? = some ⟨1, "2023-12", 7, 0, 9⟩ :=
  ⟨by decide, by decide,
    ((c8_reset_frame [1] [⟨1, "2024-01", 3, 2, 500⟩, ⟨1, "2023-12", 7, 0, 9⟩]
        "2024-01").2 1 ⟨1, "2023-12", 7, 0, 9⟩ (by decide)).1 (by decide)⟩

theorem findUsage_none_notmem (t : List UsageRow) (u : ℕ) (m : String)
    (h : findUsage t u m = none) :
    ∀ r ∈ t, ¬(r.user_id = u ∧ r.month = m) := by
  intro r hr hc
  have h2 := List.find?_eq_none.mp h r hr
  simp [hc.1, hc.2] at h2

theorem setUsage_keys (t : List UsageRow) (u : ℕ) (m : String) (f : UsageRow → UsageRow)
    (hf : ∀ r, (f r).user_id = r.user_id ∧ (f r).month = r.month) :
    (setUsage t u m f).map (fun r => (r.user_id, r.month))
      = t.map (fun r => (r.user_id, r.month)) := by
  simp only [setUsage, List.map_map]
  refine List.map_congr_left ?_
  intro r _
  simp only [Function.comp_apply]
  by_cases hc : (r.user_id == u && r.month == m) = true
  · simp [hc, (hf r).1, (hf r).2]
  · simp [hc]

theorem keysUnique_append_new (t : List UsageRow) (h : usageKeysUnique t) (row : UsageRow)
    (hf : findUsage t row.user_id row.month = none) :
    usageKeysUnique (t ++ [row]) := by
  unfold usageKeysUnique at h ⊢
  rw [List.map_append, List.nodup_append]
  refine ⟨h, List.nodup_singleton _, ?_⟩
  intro a ha hb
  simp only [List.map_cons, List.map_nil, List.mem_singleton] at hb
  obtain ⟨r, hr, hkey⟩ := List.mem_map.mp ha
  refine findUsage_none_notmem t _ _ hf r hr ?_
  have : (r.user_id, r.month) = (row.user_id, row.month) := by rw [hkey, hb]
  exact ⟨congrArg Prod.fst this, congrArg Prod.snd this⟩

theorem setUsage_keysUnique (t : List UsageRow) (h : usageKeysUnique t) (u : ℕ) (m : String)
    (f : UsageRow → UsageRow) (hf : ∀ r, (f r).user_id = r.user_id ∧ (f r).month = r.month) :
    usageKeysUnique (setUsage t u m f) := by
  unfold usageKeysUnique
  rw [setUsage_keys t u m f hf]
  exact h

theorem setUsage_nonneg (t : List UsageRow) (h : usageNonneg t) (u : ℕ) (m : String)
    (f : UsageRow → UsageRow)
    (hf : ∀ r, (0 ≤ r.emails_sent ∧ 0 ≤ r.emails_received ∧ 0 ≤ r.storage_used_bytes) →
      0 ≤ (f r).emails_sent ∧ 0 ≤ (f r).emails_received ∧ 0 ≤ (f r).storage_used_bytes) :
    usageNonneg (setUsage t u m f) := by
  intro r hr
  obtain ⟨r₀, hr₀, heq⟩ := List.mem_map.mp hr
  by_cases hc : (r₀.user_id == u && r₀.month == m) = true
  · rw [if_pos hc] at heq
    exact heq ▸ hf r₀ (h r₀ hr₀)
  · rw [if_neg hc] at heq
    exact heq ▸ h r₀ hr₀

theorem usageNonneg_append (t : List UsageRow) (h : usageNonneg t) (row : UsageRow)
    (hrow : 0 ≤ row.emails_sent ∧ 0 ≤ row.emails_received ∧ 0 ≤ row.storage_used_bytes) :
    usageNonneg (t ++ [row]) := by
  intro r hr
  rcases List.mem_append.mp hr with h' | h'
  · exact h r h'
  · rw [List.mem_singleton.mp h']
    exact hrow

/-- C5: the `UserUsage` invariant — at most one row per `(user_id, month)`
(the `uq_user_month_usage` unique constraint) with non-negative counters —
is preserved by every operation of the system: the email debit and the
lazy creation find-or-create under the unique key and only increment a
non-negative counter; the monthly reset only writes zeros; and the storage
debit and the reverse debit of `delete_file` never mutate the table at
all, because every `update_storage_usage` call raises NameError (unbound
`UserUsage` in `drive_service.py`) before its first query, leaving the
table — and hence the invariant — unchanged. -/
theorem c5_usage_invariant (t : List UsageRow) (h₁ : usageKeysUnique t) (h₂ : usageNonneg t)
    (u : ℕ) (m : String) (d : ℤ) (users : List ℕ) :
    (usageKeysUnique (update_email_usage t u m) ∧ usageNonneg (update_email_usage t u m)) ∧
    (usageKeysUnique (ensure_usage t u m) ∧ usageNonneg (ensure_usage t u m)) ∧
    (usageKeysUnique (reset_monthly_usage users t m) ∧
      usageNonneg (reset_monthly_usage users t m)) ∧
    (update_storage_usage t u m d = Except.error "NameError: name UserUsage is not defined" ∧
      delete_file_usage t u m d = Except.error "NameError: name UserUsage is not defined" ∧
      usageKeysUnique (tableAfterStorageDebit t u m d) ∧
      usageNonneg (tableAfterStorageDebit t u m d)) := by
  have hreset_keys : usageKeysUnique (reset_monthly_usage users t m) := by
    unfold usageKeysUnique reset_monthly_usage
    rw [List.map_map]
    have : ((fun r => (r.user_id, r.month)) ∘ fun r =>
        if users.contains r.user_id && r.month == m then
          { r with emails_sent := 0, emails_received := 0 } else r)
        = fun r : UsageRow => (r.user_id, r.month) := by
      funext r
      simp only [Function.comp_apply]
      split <;> rfl
    rw [this]
    exact h₁
  refine ⟨⟨?_, ?_⟩, ⟨?_, ?_⟩, ⟨hreset_keys, ?_⟩, ⟨rfl, rfl, h₁, h₂⟩⟩
  · unfold update_email_usage
    cases hf : findUsage t u m with
    | some r => exact setUsage_keysUnique t h₁ u m _ (fun r => ⟨rfl, rfl⟩)
    | none => exact keysUnique_append_new t h₁ _ hf
  · unfold update_email_usage
    cases hf : findUsage t u m with
    | some r =>
      refine setUsage_nonneg t h₂ u m _ ?_
      intro r hr
      refine ⟨?_, hr.2.1, hr.2.2⟩
      show (0 : ℤ) ≤ r.emails_sent + 1
      linarith [hr.1]
    | none => exact usageNonneg_append t h₂ _ (by norm_num)
  · unfold ensure_usage
    cases hf : findUsage t u m with
    | some r => exact h₁
    | none => exact keysUnique_append_new t h₁ _ hf
  · unfold ensure_usage
    cases hf : findUsage t u m with
    | some r => exact h₂
    | none => exact usageNonneg_append t h₂ _ (by norm_num)
  · intro r hr
    obtain ⟨r₀, hr₀, heq⟩ := List.mem_map.mp hr
    have h₀ := h₂ r₀ hr₀
    by_cases hc : (users.contains r₀.user_id && r₀.month == m) = true
    · rw [if_pos hc] at heq
      refine heq ▸ ⟨le_refl 0, le_refl 0, h₀.2.2⟩
    · rw [if_neg hc] at heq
      exact heq ▸ h₀

/-- Witness for `c5_usage_invariant` on a concrete one-row table,
exercising in particular the reverse debit of a 100-byte file recorded in
an earlier period: the call errors and the table is unchanged. -/
theorem c5_usage_invariant_witness :
    usageKeysUnique ([⟨1, "2024-01", 2, 1, 10⟩] : List UsageRow) ∧
    usageNonneg ([⟨1, "2024-01", 2, 1, 10⟩] : List UsageRow) ∧
    usageKeysUnique (update_email_usage [⟨1, "2024-01", 2, 1, 10⟩] 1 "2024-01") ∧
    update_storage_usage [⟨1, "2024-01", 2, 1, 10⟩] 1 "2024-02" (-100)
      = Except.error "NameError: name UserUsage is not defined" ∧
    usageNonneg (tableAfterStorageDebit [⟨1, "2024-01", 2, 1, 10⟩] 1 "2024-02" (-100)) := by
  have h := c5_usage_invariant [⟨1, "2024-01", 2, 1, 10⟩]
    (by unfold usageKeysUnique; decide) (by unfold usageNonneg; decide) 1 "2024-02" (-100) [1]
  have h' := c5_usage_invariant [⟨1, "2024-01", 2, 1, 10⟩]
    (by unfold usageKeysUnique; decide) (by unfold usageNonneg; decide) 1 "2024-01" (-100) [1]
  exact ⟨by unfold usageKeysUnique; decide, by unfold usageNonneg; decide,
    h'.1.1, h.2.2.2.1, h.2.2.2.2.2.2⟩

theorem submitChunk_received (s : UploadSession) (n : ℕ) (b : List ℕ) :
    (submitChunk s n b).received = insert n s.received := rfl

theorem received_foldl_mono (l : List (ℕ × List ℕ)) (s : UploadSession) :
    s.received ⊆ (l.foldl (fun s p => submitChunk s p.1 p.2) s).received := by
  induction l generalizing s with
  | nil => exact Finset.Subset.refl _
  | cons p rest ih =>
    simp only [List.foldl_cons]
    exact (Finset.subset_insert p.1 s.received).trans (ih (submitChunk s p.1 p.2))

theorem received_foldl (l : List (ℕ × List ℕ)) (s : UploadSession) :
    (l.foldl (fun s p => submitChunk s p.1 p.2) s).received
      = s.received ∪ (l.map Prod.fst).toFinset := by
  induction l generalizing s with
  | nil => simp
  | cons p rest ih =>
    simp only [List.foldl_cons, List.map_cons, List.toFinset_cons]
    rw [ih, submitChunk_received]
    ext x
    simp only [Finset.mem_union, Finset.mem_insert]
    tauto

theorem received_runSubs (l : List (ℕ × List ℕ)) :
    (runSubs l).received = (l.map Prod.fst).toFinset := by
  rw [runSubs, received_foldl]
  simp [emptySession]

theorem completesDuring_iff (total : ℕ) (l : List (ℕ × List ℕ)) (s : UploadSession)
    (h : s.received.card < total) :
    completesDuring total s l = true
      ↔ total ≤ ((l.foldl (fun s p => submitChunk s p.1 p.2) s).received.card) := by
  induction l generalizing s with
  | nil =>
    simp only [completesDuring, List.foldl_nil]
    constructor
    · intro hc
      cases hc
    · intro hc
      omega
  | cons p rest ih =>
    simp only [completesDuring, List.foldl_cons]
    by_cases hc : sessionCompletes total (submitChunk s p.1 p.2) = true
    · rw [if_pos hc]
      have hcard : (submitChunk s p.1 p.2).received.card = total := by
        have := of_decide_eq_true hc
        simpa [sessionCompletes, chunksUploaded] using hc
      simp only [true_iff]
      calc total = (submitChunk s p.1 p.2).received.card := hcard.symm
        _ ≤ _ := Finset.card_le_card (received_foldl_mono rest (submitChunk s p.1 p.2))
    · rw [if_neg hc]
      refine ih (submitChunk s p.1 p.2) ?_
      have hne : (submitChunk s p.1 p.2).received.card ≠ total := by
        intro he
        exact hc (by simp [sessionCompletes, chunksUploaded, he])
      have hle : (submitChunk s p.1 p.2).received.card ≤ s.received.card + 1 := by
        rw [submitChunk_received]
        exact Finset.card_insert_le _ _
      omega

/-- C1 counterexample: both directions of the claim fail on the code.
(a) With `total_chunks = 2`, submitting chunks 0 and 1 receives every
chunk number in [0, 2) and the handler invokes `combine_chunks` — yet no
finalize/scan job is enqueued, because `combine_chunks` raises at its
storage-quota check before `scan_file_task.delay`; so the session never
transitions to complete in the claim's sense.  (b) Submitting chunks 0
and 5 also triggers the invocation (only the count of `chunk_*` files is
compared with `total_chunks`), although chunk 1 ∈ [0, 2) was never
received. -/
theorem c1_counterexample :
    (completesDuring 2 emptySession [(0, [7]), (1, [8])] = true ∧
      (runSubs [(0, [7]), (1, [8])]).received = Finset.range 2 ∧
      combineEnqueuesScan true = 0) ∧
    (completesDuring 2 emptySession [(0, [1]), (5, [2])] = true ∧
      1 < 2 ∧ 1 ∉ (runSubs [(0, [1]), (5, [2])]).received) := by
  exact ⟨⟨by decide, by decide, rfl⟩, by decide, by decide, by decide⟩

/-- C1 (amended): the submission handler invokes `combine_chunks` (the
completion trigger) exactly when the number of distinct chunk numbers
received reaches `total_chunks`: it compares the count of `chunk_*` files
with `total_chunks` and never inspects which numbers they are, the count
condition being equivalent to the received set being exactly
[0, total_chunks) only under the additional assumption that every
submitted chunk number lies in that range.  The invoked `combine_chunks`
then always raises — NameError from the unbound `UserUsage` in the
storage-quota check, or ValueError when the user row is missing — before
`scan_file_task.delay`, so no finalize/scan job is ever enqueued and no
session transitions to complete in the claim's full sense. -/
theorem c1_completion (total : ℕ) (subs : List (ℕ × List ℕ)) (h : 0 < total) :
    (completesDuring total emptySession subs = true
        ↔ total ≤ (runSubs subs).received.card) ∧
    ((∀ p ∈ subs, p.1 < total) →
      ((runSubs subs).received.card = total
          ↔ (runSubs subs).received = Finset.range total)) ∧
    (∀ userExists, combineEnqueuesScan userExists = 0) := by
  refine ⟨?_, ?_, ?_⟩
  · have h0 : (emptySession.received).card < total := by
      simpa [emptySession] using h
    exact completesDuring_iff total subs emptySession h0
  · intro hin
    have hsub : (runSubs subs).received ⊆ Finset.range total := by
      intro x hx
      rw [received_runSubs] at hx
      obtain ⟨p, hp, hpx⟩ := List.mem_map.mp (List.mem_toFinset.mp hx)
      exact Finset.mem_range.mpr (hpx ▸ hin p hp)
    constructor
    · intro hcard
      refine Finset.eq_of_subset_of_card_le hsub ?_
      rw [hcard, Finset.card_range]
    · intro he
      rw [he, Finset.card_range]
  · intro userExists
    cases userExists <;> rfl

/-- Witness for `c1_completion` at `total_chunks = 2` with submissions
`[(0, [7]), (1, [8])]`. -/
theorem c1_completion_witness :
    0 < 2 ∧
    ((completesDuring 2 emptySession [(0, [7]), (1, [8])] = true
        ↔ 2 ≤ (runSubs [(0, [7]), (1, [8])]).received.card) ∧
      ((∀ p ∈ [((0 : ℕ), [(7 : ℕ)]), (1, [8])], p.1 < 2) →
        ((runSubs [(0, [7]), (1, [8])]).received.card = 2
            ↔ (runSubs [(0, [7]), (1, [8])]).received = Finset.range 2)) ∧
      (∀ userExists, combineEnqueuesScan userExists = 0)) :=
  ⟨by decide, c1_completion 2 [(0, [7]), (1, [8])] (by decide)⟩

theorem data_foldl_unchanged (l : List (ℕ × List ℕ)) (s : UploadSession) (k : ℕ)
    (hk : k ∉ l.map Prod.fst) :
    (l.foldl (fun s p => submitChunk s p.1 p.2) s).data k = s.data k := by
  induction l generalizing s with
  | nil => rfl
  | cons p rest ih =>
    simp only [List.map_cons, List.mem_cons, not_or] at hk
    simp only [List.foldl_cons]
    rw [ih _ hk.2]
    show (if k = p.1 then p.2 else s.data k) = s.data k
    rw [if_neg hk.1]

theorem data_foldl_mem (l : List (ℕ × List ℕ)) (s : UploadSession) (k : ℕ) (v : List ℕ)
    (hnd : (l.map Prod.fst).Nodup) (hm : (k, v) ∈ l) :
    (l.foldl (fun s p => submitChunk s p.1 p.2) s).data k = v := by
  induction l generalizing s with
  | nil => cases hm
  | cons p rest ih =>
    simp only [List.map_cons, List.nodup_cons] at hnd
    simp only [List.foldl_cons]
    rcases List.mem_cons.mp hm with h | h
    · subst h
      rw [data_foldl_unchanged rest _ k hnd.1]
      show (if k = k then v else s.data k) = v
      rw [if_pos rfl]
    · exact ih _ hnd.2 h

/-- The success-path concatenation of `combine_chunks` equals the chunks'
bytes in ascending chunk-number order, for any arrival order: for any
submission order `subs` of distinct chunk numbers and the same submissions
listed in ascending chunk-number order `ssubs`, the combined bytes equal
the concatenation of the chunk byte lists of `ssubs` in that order. -/
theorem combinedBytes_perm_sorted (subs ssubs : List (ℕ × List ℕ))
    (hperm : subs.Perm ssubs)
    (hnodup : (subs.map Prod.fst).Nodup)
    (hsorted : (ssubs.map Prod.fst).Sorted (· < ·)) :
    combinedBytes (runSubs subs) = (ssubs.map Prod.snd).flatten := by
  have hkeysperm : (subs.map Prod.fst).Perm (ssubs.map Prod.fst) := hperm.map _
  have hnodup' : (ssubs.map Prod.fst).Nodup := hkeysperm.nodup_iff.mp hnodup
  have hrec : (runSubs subs).received = (ssubs.map Prod.fst).toFinset := by
    rw [received_runSubs]
    exact List.toFinset_eq_of_perm _ _ hkeysperm
  have hsort : Finset.sort (· ≤ ·) ((ssubs.map Prod.fst).toFinset) = ssubs.map Prod.fst :=
    (List.toFinset_sort _ hnodup').mpr hsorted.le_of_lt
  rw [combinedBytes, hrec, hsort]
  congr 1
  rw [List.map_map]
  refine List.map_congr_left ?_
  intro p hp
  exact data_foldl_mem subs emptySession p.1 p.2 hnodup (hperm.mem_iff.mpr hp)

/-- C7 (code evaluated at the failing input): with `total_chunks = 3` and
chunks arriving in order 1, 0, 2, the third submission triggers
`combine_chunks`, which raises NameError (unbound `UserUsage` in the
storage-quota check at line 505, reached from line 175) before the
concatenation at lines 189-192: no final file is produced and no scan job
is enqueued.  The unreachable success path would have concatenated the
bytes in ascending chunk-number order 0, 1, 2, exactly as the claim
states of reassembly. -/
theorem c7_reassembly_unreachable :
    completesDuring 3 emptySession [(1, [10]), (0, [7]), (2, [3])] = true ∧
    combine_chunks true = Except.error "NameError: name UserUsage is not defined" ∧
    combine_chunks false = Except.error "ValueError: User not found" ∧
    combineEnqueuesScan true = 0 ∧
    combinedBytes (runSubs [(1, [10]), (0, [7]), (2, [3])]) = [7, 10, 3] := by
  refine ⟨by decide, rfl, rfl, rfl, ?_⟩
  exact combinedBytes_perm_sorted [(1, [10]), (0, [7]), (2, [3])]
    [(0, [7]), (1, [10]), (2, [3])] (by decide) (by decide) (by decide)

end Oxla

